import Mathlib

/-!
Verification of the `gns-crypto-core` / `src-tauri` messaging core
(repository `cayerbe/gns-browser-tauri`) against its natural-language
specification.

The Rust sources are shallowly embedded in Lean.  Third-party
cryptographic crates (`ed25519_dalek`, `x25519_dalek`,
`chacha20poly1305`, `hkdf`, `sha2`, `blake3`, `hex`) are not part of the
repository; they are modelled as ideal computable primitives that
satisfy their documented contracts (correctness of sign/verify, of
AEAD encrypt/decrypt, commutativity of Diffie-Hellman, collision-free
digests, bijective hex coding of fixed-width byte strings).  Byte
strings whose internal structure never matters to the verified code are
abstracted to `Nat`; byte strings whose structure does matter
(payloads, nonces, the signing seed in `identity.rs`) are `List Nat`.
Randomness (ephemeral keys, nonces, UUIDs) and the clock are passed as
explicit arguments.
-/

namespace GnsCore

/-- Modelled from the spec: the file `errors.rs` (declared by
`lib.rs` as `pub mod errors`) is not among the provided sources; the
error kinds are taken from §7 of the specification, together with the
constructor applications visible in the provided sources
(`encryption.rs`, `envelope.rs`, `breadcrumb.rs`, `identity.rs`).
Hex-decoding failures of the external `hex` crate convert to
`InvalidHex`, the kind §7 reserves for them. -/
inductive CryptoError where
  | InvalidKeyLength (expected got : Nat)
  | InvalidHex
  | InvalidNonceLength
  | SignatureVerificationFailed
  | DecryptionFailed (reason : String)
  | EncryptionFailed (reason : String)
  | KeyDerivationFailed (reason : String)
  | SerializationError (reason : String)
  | InvalidEnvelope (reason : String)
  deriving DecidableEq, Repr

/-! ## Ideal models of the external cryptographic primitives -/

/-- Ideal model of Ed25519 public-key derivation (`ed25519_dalek`):
an injective map from the 32-byte signing secret (abstracted to `Nat`)
to the verifying key.  A public key and its 64-char hex form are
identified, hex coding being a bijection on 32-byte strings. -/
def edPublicKey (secret : Nat) : Nat := secret + 1

/-- Ideal model of a detached Ed25519 signature over a message of type
`M` (`M` stands for the injective canonical byte serialization of the
signed data): the signature determines the signer's public key and the
signed message, and verifies against exactly that pair (existential
unforgeability idealised). -/
structure EdSignature (M : Type) where
  signer : Nat
  message : M
  deriving DecidableEq

/-- `signing.rs::sign_message` — sign a message with a raw private key
(idealised `ed25519_dalek` signing). -/
def sign_message {M : Type} (private_key : Nat) (message : M) : EdSignature M :=
  ⟨edPublicKey private_key, message⟩

/-- `signing.rs::verify_signature` — verification succeeds exactly for
a signature made by the holder of `public_key` on this message. -/
def verify_signature {M : Type} [DecidableEq M] (public_key : Nat) (message : M)
    (signature : EdSignature M) : Bool :=
  decide (signature.signer = public_key ∧ signature.message = message)

/-- `signing.rs::verify_signature_hex`.  The structural failure paths
(hex decoding of the key and signature, their length checks) are vacuous
in the model because keys and signatures are held in decoded form. -/
def verify_signature_hex {M : Type} [DecidableEq M] (public_key_hex : Nat)
    (message : M) (signature_hex : EdSignature M) : Except CryptoError Bool :=
  .ok (verify_signature public_key_hex message signature_hex)

/-- Ideal model of X25519 public-key derivation (`x25519_dalek`):
injective map from a 32-byte scalar (abstracted to `Nat`) to its
curve point. -/
def x25519PublicKey (secret : Nat) : Nat := secret + 1

/-- Ideal model of the X25519 Diffie-Hellman function: chosen so that
`dh e (pub r) = dh r (pub e)`, the only algebraic law the sources use. -/
def x25519DiffieHellman (secret : Nat) (their_public : Nat) : Nat :=
  (secret + 1) * their_public

/-- `encryption.rs::derive_symmetric_key` — HKDF-SHA256 with
`info = "gns-envelope-v1:" ‖ E ‖ R`.  The idealised KDF is
collision-free, so the derived key is modelled by the triple
(shared secret, ephemeral public, recipient public) itself. -/
def derive_symmetric_key (shared_secret ephemeral_public recipient_public : Nat) :
    Nat × Nat × Nat :=
  (shared_secret, ephemeral_public, recipient_public)

/-- Ideal model of a ChaCha20-Poly1305 ciphertext-with-tag: the
authenticated ciphertext determines the key, nonce and plaintext it was
produced from, and authenticates only against that key and nonce. -/
structure Ciphertext where
  key : Nat × Nat × Nat
  nonce : List Nat
  plaintext : List Nat
  deriving DecidableEq

/-- Ideal AEAD encryption. -/
def aeadEncrypt (key : Nat × Nat × Nat) (nonce : List Nat) (plaintext : List Nat) :
    Ciphertext :=
  ⟨key, nonce, plaintext⟩

/-- Ideal AEAD decryption: succeeds exactly on a ciphertext produced
under the same key and nonce (authentication-tag check idealised). -/
def aeadDecrypt (key : Nat × Nat × Nat) (nonce : List Nat) (c : Ciphertext) :
    Option (List Nat) :=
  if c.key = key ∧ c.nonce = nonce then some c.plaintext else none

/-! ## `encryption.rs` -/

/-- `encryption.rs::EncryptedPayload` — the sealed triple.  The 32-byte
ephemeral public key is abstracted to `Nat` (its length check in
`decrypt_from_sender` is therefore vacuous in the model); the 12-byte
nonce keeps its byte-list form so its length check is real. -/
structure EncryptedPayload where
  ephemeral_public_key : Nat
  nonce : List Nat
  ciphertext : Ciphertext
  deriving DecidableEq

/-- `encryption.rs::PayloadWrapper` — object form (nested
`EncryptedPayload`) or flat string form (hex ciphertext, held decoded). -/
inductive PayloadWrapper where
  | Object (payload : EncryptedPayload)
  | String (ciphertext : Ciphertext)
  deriving DecidableEq

/-- `encryption.rs::encrypt_for_recipient`.  The ephemeral secret and
the nonce, sampled from `OsRng` in the source, are explicit arguments. -/
def encrypt_for_recipient (ephemeral_secret : Nat) (nonce_bytes : List Nat)
    (plaintext : List Nat) (recipient_x25519_public : Nat) : EncryptedPayload :=
  let ephemeral_public := x25519PublicKey ephemeral_secret
  let shared_secret := x25519DiffieHellman ephemeral_secret recipient_x25519_public
  let symmetric_key :=
    derive_symmetric_key shared_secret ephemeral_public recipient_x25519_public
  { ephemeral_public_key := ephemeral_public
    nonce := nonce_bytes
    ciphertext := aeadEncrypt symmetric_key nonce_bytes plaintext }

/-- `encryption.rs::decrypt_from_sender`.  Derives the same key from the
static secret and fails with `DecryptionFailed("Authentication failed")`
whenever the AEAD authentication check fails. -/
def decrypt_from_sender (our_x25519_secret : Nat) (encrypted : EncryptedPayload) :
    Except CryptoError (List Nat) :=
  if encrypted.nonce.length ≠ 12 then
    .error CryptoError.InvalidNonceLength
  else
    let our_public := x25519PublicKey our_x25519_secret
    let shared_secret := x25519DiffieHellman our_x25519_secret encrypted.ephemeral_public_key
    let symmetric_key :=
      derive_symmetric_key shared_secret encrypted.ephemeral_public_key our_public
    match aeadDecrypt symmetric_key encrypted.nonce encrypted.ciphertext with
    | some plaintext => .ok plaintext
    | none => .error (CryptoError.DecryptionFailed "Authentication failed")

/-! ## `identity.rs` (envelope-facing view) -/

/-- `identity.rs::GnsIdentity` — for the envelope pipeline only the two
secrets matter; the byte-level X25519 derivation from the signing seed
is modelled separately below (`ByteIdentity`). -/
structure GnsIdentity where
  signing_secret : Nat
  x25519_secret : Nat
  deriving DecidableEq

/-- `identity.rs::GnsIdentity::public_key_hex` (hex form identified with
the key value). -/
def GnsIdentity.public_key_hex (i : GnsIdentity) : Nat :=
  edPublicKey i.signing_secret

/-- `identity.rs::GnsIdentity::encryption_public_key_bytes`. -/
def GnsIdentity.encryption_public_key_bytes (i : GnsIdentity) : Nat :=
  x25519PublicKey i.x25519_secret

/-- `identity.rs::GnsIdentity::sign_bytes`. -/
def GnsIdentity.sign_bytes {M : Type} (i : GnsIdentity) (message : M) : EdSignature M :=
  sign_message i.signing_secret message

/-! ## `envelope.rs` -/

/-- `envelope.rs::EnvelopeHeader` — the signed header.  The
`encrypted_payload_hash` field holds the BLAKE3 digest of the canonical
serialization of the sealed payload; the digest of an ideal hash is
collision-free, so it is modelled by the serialized value itself. -/
structure EnvelopeHeader where
  id : String
  from_public_key : Nat
  to_public_keys : List Nat
  payload_type : String
  timestamp : Int
  encrypted_payload_hash : PayloadWrapper
  deriving DecidableEq

/-- BLAKE3 digest of the canonical JSON of the sealed payload
(collision-free idealisation: the value itself).  `PayloadWrapper` is
`#[serde(untagged)]`, so `Object p` serializes exactly as `p`; the model
therefore hashes the wrapper value. -/
def blake3_hash (p : PayloadWrapper) : PayloadWrapper := p

/-- `signing.rs::canonicalize_for_signing` — the canonical JSON
serialization of the header (sorted keys, no whitespace) is injective on
header records; it is modelled as the identity on `EnvelopeHeader`. -/
def canonicalize_for_signing (header : EnvelopeHeader) : EnvelopeHeader := header

/-- `envelope.rs::GnsEnvelope`.  Key fields are held in decoded form
(hex coding on 32-byte strings is a bijection); the signature field
holds the decoded 64-byte signature. -/
structure GnsEnvelope where
  id : String
  from_public_key : Nat
  from_handle : Option String
  to_public_keys : List Nat
  payload_type : String
  timestamp : Int
  thread_id : Option String
  reply_to_id : Option String
  encrypted_payload : PayloadWrapper
  ephemeral_public_key : Option Nat
  nonce : Option (List Nat)
  signature : EdSignature EnvelopeHeader
  deriving DecidableEq

/-- `envelope.rs::OpenedEnvelope`. -/
structure OpenedEnvelope where
  from_public_key : Nat
  from_handle : Option String
  payload_type : String
  payload : List Nat
  signature_valid : Bool
  envelope_id : String
  timestamp : Int
  thread_id : Option String
  reply_to_id : Option String
  deriving DecidableEq

/-- `envelope.rs::create_envelope`.  The recipient's encryption key
arrives already decoded (its hex decode and 32-byte length check are
vacuous for a well-formed key); the UUID, the wall clock, the ephemeral
secret and the nonce are explicit arguments. -/
def create_envelope (sender : GnsIdentity) (recipient_public_key : Nat)
    (recipient_encryption_key : Nat) (payload_type : String) (payload : List Nat)
    (envelope_id : String) (timestamp : Int) (ephemeral_secret : Nat)
    (nonce_bytes : List Nat) : GnsEnvelope :=
  let encrypted_payload :=
    encrypt_for_recipient ephemeral_secret nonce_bytes payload recipient_encryption_key
  let header : EnvelopeHeader :=
    { id := envelope_id
      from_public_key := sender.public_key_hex
      to_public_keys := [recipient_public_key]
      payload_type := payload_type
      timestamp := timestamp
      encrypted_payload_hash := blake3_hash (PayloadWrapper.Object encrypted_payload) }
  let signature := sender.sign_bytes (canonicalize_for_signing header)
  { id := envelope_id
    from_public_key := sender.public_key_hex
    from_handle := none
    to_public_keys := [recipient_public_key]
    payload_type := payload_type
    timestamp := timestamp
    thread_id := none
    reply_to_id := none
    encrypted_payload := PayloadWrapper.Object encrypted_payload
    ephemeral_public_key := none
    nonce := none
    signature := signature }

/-- `envelope.rs::open_envelope` — recompute the header, report
signature validity, then decrypt (string-form payloads are first
reassembled from the top-level fields). -/
def open_envelope (recipient : GnsIdentity) (envelope : GnsEnvelope) :
    Except CryptoError OpenedEnvelope := do
  let header : EnvelopeHeader :=
    { id := envelope.id
      from_public_key := envelope.from_public_key
      to_public_keys := envelope.to_public_keys
      payload_type := envelope.payload_type
      timestamp := envelope.timestamp
      encrypted_payload_hash := blake3_hash envelope.encrypted_payload }
  let signature_valid ← verify_signature_hex envelope.from_public_key
    (canonicalize_for_signing header) envelope.signature
  let encrypted_payload ←
    match envelope.encrypted_payload with
    | PayloadWrapper.Object obj => pure obj
    | PayloadWrapper.String ciphertext =>
      match envelope.ephemeral_public_key with
      | none => .error (CryptoError.DecryptionFailed
          "Missing ephemeral_public_key for string payload")
      | some ephemeral_key =>
        match envelope.nonce with
        | none => .error (CryptoError.DecryptionFailed "Missing nonce for string payload")
        | some nonce =>
          pure { ephemeral_public_key := ephemeral_key
                 nonce := nonce
                 ciphertext := ciphertext }
  let payload ← decrypt_from_sender recipient.x25519_secret encrypted_payload
  pure { from_public_key := envelope.from_public_key
         from_handle := envelope.from_handle
         payload_type := envelope.payload_type
         payload := payload
         signature_valid := signature_valid
         envelope_id := envelope.id
         timestamp := envelope.timestamp
         thread_id := envelope.thread_id
         reply_to_id := envelope.reply_to_id }

end GnsCore

namespace GnsCore

/-- C1: opening with the recipient an envelope created for that
recipient succeeds, returns the original payload bytes, and reports
`signature_valid = true`. -/
theorem envelope_roundtrip (S R : GnsIdentity) (t : String) (p : List Nat)
    (eid : String) (ts : Int) (eph : Nat) (n : List Nat) (hn : n.length = 12) :
    ∃ o : OpenedEnvelope,
      open_envelope R
        (create_envelope S R.public_key_hex R.encryption_public_key_bytes t p eid ts eph n)
        = .ok o ∧ o.payload = p ∧ o.signature_valid = true := by
  refine ⟨{ from_public_key := S.public_key_hex, from_handle := none, payload_type := t,
            payload := p, signature_valid := true, envelope_id := eid, timestamp := ts,
            thread_id := none, reply_to_id := none }, ?_, rfl, rfl⟩
  simp [open_envelope, create_envelope, encrypt_for_recipient, decrypt_from_sender,
    aeadEncrypt, aeadDecrypt, derive_symmetric_key, x25519DiffieHellman,
    x25519PublicKey, verify_signature_hex, verify_signature, sign_message,
    GnsIdentity.sign_bytes, GnsIdentity.public_key_hex,
    GnsIdentity.encryption_public_key_bytes, canonicalize_for_signing,
    blake3_hash, hn, Nat.mul_comm, Bind.bind, Except.bind, Pure.pure, Except.pure]

/-- Witness for C1 at concrete identities and payload. -/
theorem envelope_roundtrip_witness :
    (List.replicate 12 0).length = 12 ∧
      ∃ o : OpenedEnvelope,
        open_envelope ⟨1, 1⟩
          (create_envelope ⟨0, 0⟩ (GnsIdentity.public_key_hex ⟨1, 1⟩)
            (GnsIdentity.encryption_public_key_bytes ⟨1, 1⟩) "text/plain" [104, 105]
            "envelope-1" 0 2 (List.replicate 12 0))
          = .ok o ∧ o.payload = [104, 105] ∧ o.signature_valid = true :=
  ⟨by decide,
    envelope_roundtrip ⟨0, 0⟩ ⟨1, 1⟩ "text/plain" [104, 105] "envelope-1" 0 2
      (List.replicate 12 0) (by decide)⟩

/-- C2: the envelope signature covers exactly the header fields —
mutating `timestamp`, `id`, `payload_type` or `to_public_keys` after
signing makes `open_envelope` report `signature_valid = false` while
decryption still returns the original payload; mutating `from_handle`,
`thread_id` or `reply_to_id` leaves `signature_valid = true`. -/
theorem envelope_signature_binds_header_fields (S R : GnsIdentity) (t : String)
    (p : List Nat) (eid : String) (ts : Int) (eph : Nat) (n : List Nat)
    (hn : n.length = 12) :
    (∀ ts' : Int, ts' ≠ ts →
      ∃ o, open_envelope R
          { create_envelope S R.public_key_hex R.encryption_public_key_bytes t p eid ts eph n
              with timestamp := ts' } = .ok o ∧
        o.signature_valid = false ∧ o.payload = p) ∧
    (∀ eid' : String, eid' ≠ eid →
      ∃ o, open_envelope R
          { create_envelope S R.public_key_hex R.encryption_public_key_bytes t p eid ts eph n
              with id := eid' } = .ok o ∧
        o.signature_valid = false ∧ o.payload = p) ∧
    (∀ t' : String, t' ≠ t →
      ∃ o, open_envelope R
          { create_envelope S R.public_key_hex R.encryption_public_key_bytes t p eid ts eph n
              with payload_type := t' } = .ok o ∧
        o.signature_valid = false ∧ o.payload = p) ∧
    (∀ tos' : List Nat, tos' ≠ [R.public_key_hex] →
      ∃ o, open_envelope R
          { create_envelope S R.public_key_hex R.encryption_public_key_bytes t p eid ts eph n
              with to_public_keys := tos' } = .ok o ∧
        o.signature_valid = false ∧ o.payload = p) ∧
    (∀ h' : Option String,
      ∃ o, open_envelope R
          { create_envelope S R.public_key_hex R.encryption_public_key_bytes t p eid ts eph n
              with from_handle := h' } = .ok o ∧
        o.signature_valid = true ∧ o.payload = p) ∧
    (∀ th' : Option String,
      ∃ o, open_envelope R
          { create_envelope S R.public_key_hex R.encryption_public_key_bytes t p eid ts eph n
              with thread_id := th' } = .ok o ∧
        o.signature_valid = true ∧ o.payload = p) ∧
    (∀ rp' : Option String,
      ∃ o, open_envelope R
          { create_envelope S R.public_key_hex R.encryption_public_key_bytes t p eid ts eph n
              with reply_to_id := rp' } = .ok o ∧
        o.signature_valid = true ∧ o.payload = p) := by
  refine ⟨?_, ?_, ?_, ?_, ?_, ?_, ?_⟩
  · intro ts' hne
    refine ⟨{ from_public_key := S.public_key_hex, from_handle := none, payload_type := t,
              payload := p, signature_valid := false, envelope_id := eid, timestamp := ts',
              thread_id := none, reply_to_id := none }, ?_, rfl, rfl⟩
    simp [open_envelope, create_envelope, encrypt_for_recipient, decrypt_from_sender,
      aeadEncrypt, aeadDecrypt, derive_symmetric_key, x25519DiffieHellman,
      x25519PublicKey, verify_signature_hex, verify_signature, sign_message,
      GnsIdentity.sign_bytes, GnsIdentity.public_key_hex,
      GnsIdentity.encryption_public_key_bytes, canonicalize_for_signing,
      blake3_hash, hn, Nat.mul_comm, Bind.bind, Except.bind, Pure.pure, Except.pure,
      EnvelopeHeader.mk.injEq, hne, Ne.symm hne]
  · intro eid' hne
    refine ⟨{ from_public_key := S.public_key_hex, from_handle := none, payload_type := t,
              payload := p, signature_valid := false, envelope_id := eid', timestamp := ts,
              thread_id := none, reply_to_id := none }, ?_, rfl, rfl⟩
    simp [open_envelope, create_envelope, encrypt_for_recipient, decrypt_from_sender,
      aeadEncrypt, aeadDecrypt, derive_symmetric_key, x25519DiffieHellman,
      x25519PublicKey, verify_signature_hex, verify_signature, sign_message,
      GnsIdentity.sign_bytes, GnsIdentity.public_key_hex,
      GnsIdentity.encryption_public_key_bytes, canonicalize_for_signing,
      blake3_hash, hn, Nat.mul_comm, Bind.bind, Except.bind, Pure.pure, Except.pure,
      EnvelopeHeader.mk.injEq, hne, Ne.symm hne]
  · intro t' hne
    refine ⟨{ from_public_key := S.public_key_hex, from_handle := none, payload_type := t',
              payload := p, signature_valid := false, envelope_id := eid, timestamp := ts,
              thread_id := none, reply_to_id := none }, ?_, rfl, rfl⟩
    simp [open_envelope, create_envelope, encrypt_for_recipient, decrypt_from_sender,
      aeadEncrypt, aeadDecrypt, derive_symmetric_key, x25519DiffieHellman,
      x25519PublicKey, verify_signature_hex, verify_signature, sign_message,
      GnsIdentity.sign_bytes, GnsIdentity.public_key_hex,
      GnsIdentity.encryption_public_key_bytes, canonicalize_for_signing,
      blake3_hash, hn, Nat.mul_comm, Bind.bind, Except.bind, Pure.pure, Except.pure,
      EnvelopeHeader.mk.injEq, hne, Ne.symm hne]
  · intro tos' hne
    refine ⟨{ from_public_key := S.public_key_hex, from_handle := none, payload_type := t,
              payload := p, signature_valid := false, envelope_id := eid, timestamp := ts,
              thread_id := none, reply_to_id := none }, ?_, rfl, rfl⟩
    simp [open_envelope, create_envelope, encrypt_for_recipient, decrypt_from_sender,
      aeadEncrypt, aeadDecrypt, derive_symmetric_key, x25519DiffieHellman,
      x25519PublicKey, verify_signature_hex, verify_signature, sign_message,
      GnsIdentity.sign_bytes, GnsIdentity.public_key_hex,
      GnsIdentity.encryption_public_key_bytes, canonicalize_for_signing,
      blake3_hash, hn, Nat.mul_comm, Bind.bind, Except.bind, Pure.pure, Except.pure,
      EnvelopeHeader.mk.injEq, hne, Ne.symm hne]
    exact fun h => hne h.symm
  · intro h'
    refine ⟨{ from_public_key := S.public_key_hex, from_handle := h', payload_type := t,
              payload := p, signature_valid := true, envelope_id := eid, timestamp := ts,
              thread_id := none, reply_to_id := none }, ?_, rfl, rfl⟩
    simp [open_envelope, create_envelope, encrypt_for_recipient, decrypt_from_sender,
      aeadEncrypt, aeadDecrypt, derive_symmetric_key, x25519DiffieHellman,
      x25519PublicKey, verify_signature_hex, verify_signature, sign_message,
      GnsIdentity.sign_bytes, GnsIdentity.public_key_hex,
      GnsIdentity.encryption_public_key_bytes, canonicalize_for_signing,
      blake3_hash, hn, Nat.mul_comm, Bind.bind, Except.bind, Pure.pure, Except.pure]
  · intro th'
    refine ⟨{ from_public_key := S.public_key_hex, from_handle := none, payload_type := t,
              payload := p, signature_valid := true, envelope_id := eid, timestamp := ts,
              thread_id := th', reply_to_id := none }, ?_, rfl, rfl⟩
    simp [open_envelope, create_envelope, encrypt_for_recipient, decrypt_from_sender,
      aeadEncrypt, aeadDecrypt, derive_symmetric_key, x25519DiffieHellman,
      x25519PublicKey, verify_signature_hex, verify_signature, sign_message,
      GnsIdentity.sign_bytes, GnsIdentity.public_key_hex,
      GnsIdentity.encryption_public_key_bytes, canonicalize_for_signing,
      blake3_hash, hn, Nat.mul_comm, Bind.bind, Except.bind, Pure.pure, Except.pure]
  · intro rp'
    refine ⟨{ from_public_key := S.public_key_hex, from_handle := none, payload_type := t,
              payload := p, signature_valid := true, envelope_id := eid, timestamp := ts,
              thread_id := none, reply_to_id := rp' }, ?_, rfl, rfl⟩
    simp [open_envelope, create_envelope, encrypt_for_recipient, decrypt_from_sender,
      aeadEncrypt, aeadDecrypt, derive_symmetric_key, x25519DiffieHellman,
      x25519PublicKey, verify_signature_hex, verify_signature, sign_message,
      GnsIdentity.sign_bytes, GnsIdentity.public_key_hex,
      GnsIdentity.encryption_public_key_bytes, canonicalize_for_signing,
      blake3_hash, hn, Nat.mul_comm, Bind.bind, Except.bind, Pure.pure, Except.pure]

/-- Witness for C2 at concrete identities, mutating each field once. -/
theorem envelope_signature_binds_header_fields_witness :
    (List.replicate 12 0).length = 12 ∧
    (∃ o, open_envelope ⟨1, 1⟩
        { create_envelope ⟨0, 0⟩ (GnsIdentity.public_key_hex ⟨1, 1⟩)
            (GnsIdentity.encryption_public_key_bytes ⟨1, 1⟩) "text/plain" [104]
            "envelope-1" 0 2 (List.replicate 12 0) with timestamp := 1000 } = .ok o ∧
      o.signature_valid = false ∧ o.payload = [104]) ∧
    (∃ o, open_envelope ⟨1, 1⟩
        { create_envelope ⟨0, 0⟩ (GnsIdentity.public_key_hex ⟨1, 1⟩)
            (GnsIdentity.encryption_public_key_bytes ⟨1, 1⟩) "text/plain" [104]
            "envelope-1" 0 2 (List.replicate 12 0) with from_handle := some "alice" } = .ok o ∧
      o.signature_valid = true ∧ o.payload = [104]) :=
  ⟨by decide,
    (envelope_signature_binds_header_fields ⟨0, 0⟩ ⟨1, 1⟩ "text/plain" [104]
      "envelope-1" 0 2 (List.replicate 12 0) (by decide)).1 1000 (by decide),
    ((envelope_signature_binds_header_fields ⟨0, 0⟩ ⟨1, 1⟩ "text/plain" [104]
      "envelope-1" 0 2 (List.replicate 12 0) (by decide)).2.2.2.2.1 (some "alice"))⟩

/-- C3: for a well-formed encrypted payload (32-byte ephemeral key,
12-byte nonce), decryption fails with the very same error value
`DecryptionFailed "Authentication failed"` in every failure case — a
non-recipient identity, a tampered nonce, a tampered ephemeral key, or a
ciphertext that is not an AEAD encryption under the derived key and
nonce — so the two failure causes are not distinguishable. -/
theorem decryption_failed_indistinguishable (R : GnsIdentity) (eph : Nat)
    (n p : List Nat) (hn : n.length = 12) :
    (∀ R' : GnsIdentity, R'.x25519_secret ≠ R.x25519_secret →
      decrypt_from_sender R'.x25519_secret
          (encrypt_for_recipient eph n p R.encryption_public_key_bytes)
        = .error (CryptoError.DecryptionFailed "Authentication failed")) ∧
    (∀ n' : List Nat, n'.length = 12 → n' ≠ n →
      decrypt_from_sender R.x25519_secret
          { encrypt_for_recipient eph n p R.encryption_public_key_bytes with nonce := n' }
        = .error (CryptoError.DecryptionFailed "Authentication failed")) ∧
    (∀ E' : Nat, E' ≠ x25519PublicKey eph →
      decrypt_from_sender R.x25519_secret
          { encrypt_for_recipient eph n p R.encryption_public_key_bytes
              with ephemeral_public_key := E' }
        = .error (CryptoError.DecryptionFailed "Authentication failed")) ∧
    (∀ c' : Ciphertext,
      (∀ p' : List Nat, c' ≠
        aeadEncrypt
          (derive_symmetric_key
            (x25519DiffieHellman eph R.encryption_public_key_bytes)
            (x25519PublicKey eph) R.encryption_public_key_bytes) n p') →
      decrypt_from_sender R.x25519_secret
          { encrypt_for_recipient eph n p R.encryption_public_key_bytes
              with ciphertext := c' }
        = .error (CryptoError.DecryptionFailed "Authentication failed")) := by
  refine ⟨?_, ?_, ?_, ?_⟩
  · intro R' hne
    have hcond : ¬((eph + 1) * (R.x25519_secret + 1) = (R'.x25519_secret + 1) * (eph + 1) ∧
        R.x25519_secret = R'.x25519_secret) := fun h => hne h.2.symm
    simp [decrypt_from_sender, encrypt_for_recipient, aeadEncrypt, aeadDecrypt,
      derive_symmetric_key, x25519DiffieHellman, x25519PublicKey,
      GnsIdentity.encryption_public_key_bytes, hn, hcond]
  · intro n' hn' hne
    have hcond : ¬((eph + 1) * (R.x25519_secret + 1) = (R.x25519_secret + 1) * (eph + 1) ∧
        n = n') := fun h => hne h.2.symm
    simp [decrypt_from_sender, encrypt_for_recipient, aeadEncrypt, aeadDecrypt,
      derive_symmetric_key, x25519DiffieHellman, x25519PublicKey,
      GnsIdentity.encryption_public_key_bytes, hn', hcond]
  · intro E' hne
    have hcond : ¬((eph + 1) * (R.x25519_secret + 1) = (R.x25519_secret + 1) * E' ∧
        eph + 1 = E') := fun h => hne h.2.symm
    simp [decrypt_from_sender, encrypt_for_recipient, aeadEncrypt, aeadDecrypt,
      derive_symmetric_key, x25519DiffieHellman, x25519PublicKey,
      GnsIdentity.encryption_public_key_bytes, hn, hcond]
  · intro c' hne
    have hcond : ¬(c'.key = ((R.x25519_secret + 1) * (eph + 1), eph + 1, R.x25519_secret + 1) ∧
        c'.nonce = n) := by
      rintro ⟨hk, hn2⟩
      refine hne c'.plaintext ?_
      cases c'
      simp_all [aeadEncrypt, derive_symmetric_key, x25519DiffieHellman, x25519PublicKey,
        GnsIdentity.encryption_public_key_bytes, Nat.mul_comm]
    simp [decrypt_from_sender, encrypt_for_recipient, aeadEncrypt, aeadDecrypt,
      derive_symmetric_key, x25519DiffieHellman, x25519PublicKey,
      GnsIdentity.encryption_public_key_bytes, hn, hcond]

/-- Witness for C3 at a concrete recipient, nonce and payload. -/
theorem decryption_failed_indistinguishable_witness :
    (List.replicate 12 0).length = 12 ∧
    decrypt_from_sender 2
        (encrypt_for_recipient 5 (List.replicate 12 0) [7]
          (GnsIdentity.encryption_public_key_bytes ⟨1, 1⟩))
      = .error (CryptoError.DecryptionFailed "Authentication failed") ∧
    decrypt_from_sender 1
        { encrypt_for_recipient 5 (List.replicate 12 0) [7]
            (GnsIdentity.encryption_public_key_bytes ⟨1, 1⟩)
            with nonce := List.replicate 12 1 }
      = .error (CryptoError.DecryptionFailed "Authentication failed") :=
  ⟨by decide,
    (decryption_failed_indistinguishable ⟨1, 1⟩ 5 (List.replicate 12 0) [7]
      (by decide)).1 ⟨2, 2⟩ (by decide),
    (decryption_failed_indistinguishable ⟨1, 1⟩ 5 (List.replicate 12 0) [7]
      (by decide)).2.1 (List.replicate 12 1) (by decide) (by decide)⟩

/-! ## `breadcrumb.rs` -/

/-- The canonical signing payload of a breadcrumb,
`"gns-breadcrumb-v1:{h3_index}:{timestamp}:{public_key}"`, modelled by
the triple of its variable components (the fixed-layout format string is
injective in them for the values the code produces). -/
abbrev BreadcrumbSigningData : Type := String × Int × Nat

/-- `breadcrumb.rs::Breadcrumb`. -/
structure Breadcrumb where
  h3_index : String
  timestamp : Int
  public_key : Nat
  signature : EdSignature BreadcrumbSigningData
  resolution : Nat
  deriving DecidableEq

/-- `breadcrumb.rs::create_breadcrumb_from_h3` — the wall-clock
timestamp is an explicit argument. -/
def create_breadcrumb_from_h3 (identity : GnsIdentity) (h3_index : String)
    (resolution : Nat) (timestamp : Int) : Breadcrumb :=
  let signing_data : BreadcrumbSigningData :=
    (h3_index, timestamp, identity.public_key_hex)
  { h3_index := h3_index
    timestamp := timestamp
    public_key := identity.public_key_hex
    signature := identity.sign_bytes signing_data
    resolution := resolution }

/-- `breadcrumb.rs::verify_breadcrumb` — recompute the signing payload
and verify against the breadcrumb's own public key. -/
def verify_breadcrumb (breadcrumb : Breadcrumb) : Except CryptoError Bool :=
  verify_signature_hex breadcrumb.public_key
    ((breadcrumb.h3_index, breadcrumb.timestamp, breadcrumb.public_key) :
      BreadcrumbSigningData)
    breadcrumb.signature

/-- `breadcrumb.rs::Trajectory`. -/
structure Trajectory where
  public_key : Nat
  breadcrumbs : List Breadcrumb
  deriving DecidableEq

/-- `breadcrumb.rs::Trajectory::new`. -/
def Trajectory.new (public_key : Nat) : Trajectory :=
  { public_key := public_key, breadcrumbs := [] }

/-- Comparison used by `sort_by_key(|b| b.timestamp)`. -/
def byTimestamp (a b : Breadcrumb) : Bool :=
  decide (a.timestamp ≤ b.timestamp)

/-- `breadcrumb.rs::Trajectory::add` — reject a foreign or unverifiable
breadcrumb, otherwise push and re-sort by timestamp (Rust's stable
`sort_by_key` modelled by stable `mergeSort`). -/
def Trajectory.add (t : Trajectory) (breadcrumb : Breadcrumb) :
    Except CryptoError Trajectory :=
  if breadcrumb.public_key ≠ t.public_key then
    .error (CryptoError.InvalidEnvelope "Breadcrumb public key doesn't match trajectory")
  else do
    let ok ← verify_breadcrumb breadcrumb
    if !ok then
      .error CryptoError.SignatureVerificationFailed
    else
      .ok { t with breadcrumbs := (t.breadcrumbs ++ [breadcrumb]).mergeSort byTimestamp }

/-- Folding `Trajectory::add` over a sequence of breadcrumbs, stopping
at the first error (a sequence of `add` calls). -/
def Trajectory.addAll (t : Trajectory) (bs : List Breadcrumb) :
    Except CryptoError Trajectory :=
  bs.foldlM Trajectory.add t

/-- `breadcrumb.rs::Trajectory::unique_locations` — the number of
distinct `h3_index` values (a `HashSet` cardinality in the source). -/
def Trajectory.unique_locations (t : Trajectory) : Nat :=
  (t.breadcrumbs.map (fun b => b.h3_index)).dedup.length

/-- `breadcrumb.rs::Trajectory::time_span_seconds`. -/
def Trajectory.time_span_seconds (t : Trajectory) : Option Int :=
  if t.breadcrumbs.length < 2 then none
  else
    match t.breadcrumbs.head?, t.breadcrumbs.getLast? with
    | some first, some last => some (last.timestamp - first.timestamp)
    | _, _ => none

/-- `breadcrumb.rs::Trajectory::meets_claim_requirements`. -/
def Trajectory.meets_claim_requirements (t : Trajectory) : Bool :=
  if t.breadcrumbs.length < 100 then false
  else if t.unique_locations < 10 then false
  else
    match t.time_span_seconds with
    | some span => decide (7 * 24 * 60 * 60 ≤ span)
    | none => false

/-- In a timestamp-sorted breadcrumb list the head is a lower bound. -/
theorem sorted_head_timestamp_le {l : List Breadcrumb}
    (hs : List.Sorted (fun a b => a.timestamp ≤ b.timestamp) l) {f : Breadcrumb}
    (hf : l.head? = some f) {x : Breadcrumb} (hx : x ∈ l) :
    f.timestamp ≤ x.timestamp := by
  cases l with
  | nil => cases hx
  | cons a as =>
    obtain rfl : a = f := by simpa using hf
    rcases List.mem_cons.mp hx with rfl | hx'
    · exact le_refl _
    · exact (List.sorted_cons.mp hs).1 x hx'

/-- In a timestamp-sorted breadcrumb list the last element is an upper
bound. -/
theorem sorted_timestamp_le_getLast {l : List Breadcrumb}
    (hs : List.Sorted (fun a b => a.timestamp ≤ b.timestamp) l) {g : Breadcrumb}
    (hg : l.getLast? = some g) {x : Breadcrumb} (hx : x ∈ l) :
    x.timestamp ≤ g.timestamp := by
  induction l with
  | nil => cases hx
  | cons a as ih =>
    cases as with
    | nil =>
      obtain rfl : a = g := by simpa using hg
      obtain rfl : x = a := by simpa using hx
      exact le_refl _
    | cons b bs =>
      have hg' : (b :: bs).getLast? = some g := by
        simpa [List.getLast?_cons_cons] using hg
      rcases List.mem_cons.mp hx with rfl | hx'
      · exact (List.sorted_cons.mp hs).1 g (List.mem_of_mem_getLast? hg')
      · exact ih (List.sorted_cons.mp hs).2 hg' hx'

/-- C5: a trajectory meets the claim predicate iff it has at least 100
breadcrumbs, at least 10 distinct cells and a first-to-last timestamp
span of at least 604800 seconds; and on timestamp-sorted trajectories
eligibility is monotone — removing any breadcrumb from an ineligible
trajectory leaves it ineligible. -/
theorem meets_claim_requirements_iff_and_monotone (t : Trajectory) :
    (t.meets_claim_requirements = true ↔
      100 ≤ t.breadcrumbs.length ∧ 10 ≤ t.unique_locations ∧
      ∃ f l : Breadcrumb, t.breadcrumbs.head? = some f ∧
        t.breadcrumbs.getLast? = some l ∧ 604800 ≤ l.timestamp - f.timestamp) ∧
    (List.Sorted (fun a b => a.timestamp ≤ b.timestamp) t.breadcrumbs →
      t.meets_claim_requirements = false →
      ∀ i < t.breadcrumbs.length,
        Trajectory.meets_claim_requirements
          { t with breadcrumbs := t.breadcrumbs.eraseIdx i } = false) := by
  have main : ∀ s : Trajectory, s.meets_claim_requirements = true ↔
      100 ≤ s.breadcrumbs.length ∧ 10 ≤ s.unique_locations ∧
      ∃ f l : Breadcrumb, s.breadcrumbs.head? = some f ∧
        s.breadcrumbs.getLast? = some l ∧ 604800 ≤ l.timestamp - f.timestamp := by
    intro s
    unfold Trajectory.meets_claim_requirements Trajectory.time_span_seconds
    constructor
    · intro h
      by_cases h1 : s.breadcrumbs.length < 100
      · simp [h1] at h
      by_cases h2 : s.unique_locations < 10
      · simp [h1, h2] at h
      by_cases h3 : s.breadcrumbs.length < 2
      · simp [h1, h2, h3] at h
      rcases hf : s.breadcrumbs.head? with _ | f
      · exact absurd (List.head?_eq_none_iff.mp hf) (by
          intro hnil; rw [hnil] at h1; exact h1 (by norm_num))
      rcases hg : s.breadcrumbs.getLast? with _ | g
      · exact absurd (List.getLast?_eq_none_iff.mp hg) (by
          intro hnil; rw [hnil] at h1; exact h1 (by norm_num))
      refine ⟨by omega, by omega, f, g, rfl, rfl, ?_⟩
      simp [h1, h2, h3, hf, hg] at h
      omega
    · rintro ⟨h1, h2, f, g, hf, hg, hspan⟩
      have h1' : ¬s.breadcrumbs.length < 100 := by omega
      have h2' : ¬s.unique_locations < 10 := by omega
      have h3' : ¬s.breadcrumbs.length < 2 := by omega
      simp [h1', h2', h3', hf, hg]
      omega
  refine ⟨main t, ?_⟩
  intro hs hfalse i hi
  by_contra habs
  have helig := (main _).mp (by
    cases h : Trajectory.meets_claim_requirements
        { t with breadcrumbs := t.breadcrumbs.eraseIdx i }
    · exact absurd h habs
    · rfl)
  obtain ⟨hlen', huniq', f', g', hf', hg', hspan'⟩ := helig
  have hproj : ({ t with breadcrumbs := t.breadcrumbs.eraseIdx i } : Trajectory).breadcrumbs
      = t.breadcrumbs.eraseIdx i := rfl
  rw [hproj] at hlen' hf' hg'
  have hsub : (t.breadcrumbs.eraseIdx i).Sublist t.breadcrumbs :=
    List.eraseIdx_sublist t.breadcrumbs i
  have hlen : 100 ≤ t.breadcrumbs.length := by
    have := List.length_eraseIdx t.breadcrumbs i
    rw [if_pos hi] at this
    omega
  have huniq : 10 ≤ t.unique_locations := by
    have hcard : ((t.breadcrumbs.eraseIdx i).map (fun b => b.h3_index)).toFinset.card ≤
        (t.breadcrumbs.map (fun b => b.h3_index)).toFinset.card := by
      apply Finset.card_le_card
      intro x hx
      rw [List.mem_toFinset] at hx ⊢
      exact (List.Sublist.map (fun b => b.h3_index) hsub).subset hx
    rw [List.card_toFinset, List.card_toFinset] at hcard
    unfold Trajectory.unique_locations at huniq' ⊢
    rw [hproj] at huniq'
    omega
  rcases hfb : t.breadcrumbs.head? with _ | f
  · rw [List.head?_eq_none_iff.mp hfb] at hlen; simp at hlen
  rcases hgb : t.breadcrumbs.getLast? with _ | g
  · rw [List.getLast?_eq_none_iff.mp hgb] at hlen; simp at hlen
  have hf'mem : f' ∈ t.breadcrumbs := hsub.subset (List.mem_of_mem_head? hf')
  have hg'mem : g' ∈ t.breadcrumbs := hsub.subset (List.mem_of_mem_getLast? hg')
  have hfle : f.timestamp ≤ f'.timestamp := sorted_head_timestamp_le hs hfb hf'mem
  have hgle : g'.timestamp ≤ g.timestamp := sorted_timestamp_le_getLast hs hgb hg'mem
  have : t.meets_claim_requirements = true :=
    (main t).mpr ⟨hlen, huniq, f, g, hfb, hgb, by omega⟩
  rw [this] at hfalse
  cases hfalse

/-- Witness for C5's monotonicity part on a concrete short (hence
ineligible) sorted trajectory. -/
theorem meets_claim_requirements_monotone_witness :
    Trajectory.meets_claim_requirements
      { public_key := 1,
        breadcrumbs := [create_breadcrumb_from_h3 ⟨0, 0⟩ "cell" 7 5].eraseIdx 0 }
      = false :=
  (meets_claim_requirements_iff_and_monotone
      ⟨1, [create_breadcrumb_from_h3 ⟨0, 0⟩ "cell" 7 5]⟩).2
    (by simp) (by decide) 0 (by decide)

/-- `byTimestamp` is transitive. -/
theorem byTimestamp_trans (a b c : Breadcrumb) (hab : byTimestamp a b = true)
    (hbc : byTimestamp b c = true) : byTimestamp a c = true := by
  simp only [byTimestamp, decide_eq_true_eq] at *
  omega

/-- `byTimestamp` is total. -/
theorem byTimestamp_total (a b : Breadcrumb) :
    (byTimestamp a b || byTimestamp b a) = true := by
  simp only [byTimestamp, Bool.or_eq_true, decide_eq_true_eq]
  exact le_total a.timestamp b.timestamp

/-- One successful `Trajectory::add` step: the owner key is unchanged,
the result is sorted by timestamp, and every breadcrumb of the result
was already present or is the one just added. -/
theorem trajectory_add_step (t t' : Trajectory) (b : Breadcrumb)
    (h : t.add b = .ok t') :
    t'.public_key = t.public_key ∧
    List.Sorted (fun a b => a.timestamp ≤ b.timestamp) t'.breadcrumbs ∧
    ∀ x ∈ t'.breadcrumbs, x ∈ t.breadcrumbs ∨ x = b := by
  unfold Trajectory.add at h
  by_cases hpk : b.public_key ≠ t.public_key
  · simp [hpk] at h
  · by_cases hv : verify_signature b.public_key
        ((b.h3_index, b.timestamp, b.public_key) : BreadcrumbSigningData) b.signature = true
    · simp only [hpk, if_false, verify_breadcrumb, verify_signature_hex, hv, ite_not,
        Bind.bind, Except.bind, Bool.not_true, Bool.false_eq_true, if_true] at h
      cases h
      refine ⟨rfl, ?_, ?_⟩
      · exact List.Pairwise.imp
          (by intro a b hab; exact (by simpa [byTimestamp] using hab))
          (List.sorted_mergeSort byTimestamp_trans byTimestamp_total
            (t.breadcrumbs ++ [b]))
      · intro x hx
        have := (List.mergeSort_perm (t.breadcrumbs ++ [b]) byTimestamp).subset hx
        simpa using this
    · simp [hpk, verify_breadcrumb, verify_signature_hex, hv, Bind.bind, Except.bind] at h

/-- C6: `Trajectory::add` fails with the mismatched-owner error whenever
the breadcrumb's signer differs from the trajectory's key, fails with
`SignatureVerificationFailed` whenever the signature does not verify,
and after every successful sequence of `add` calls starting from an
empty trajectory the breadcrumb list is sorted by timestamp and contains
only breadcrumbs whose signer equals the trajectory's key. -/
theorem trajectory_add_rejects_and_invariant (pk : Nat) :
    (∀ (t : Trajectory) (b : Breadcrumb), b.public_key ≠ t.public_key →
      t.add b = .error
        (CryptoError.InvalidEnvelope "Breadcrumb public key doesn't match trajectory")) ∧
    (∀ (t : Trajectory) (b : Breadcrumb), b.public_key = t.public_key →
      verify_breadcrumb b = .ok false →
      t.add b = .error CryptoError.SignatureVerificationFailed) ∧
    (∀ (bs : List Breadcrumb) (t' : Trajectory),
      Trajectory.addAll (Trajectory.new pk) bs = .ok t' →
      List.Sorted (fun a b => a.timestamp ≤ b.timestamp) t'.breadcrumbs ∧
      ∀ b ∈ t'.breadcrumbs, b.public_key = pk) := by
  refine ⟨?_, ?_, ?_⟩
  · intro t b hne
    simp [Trajectory.add, hne]
  · intro t b heq hver
    simp [Trajectory.add, heq, hver, Bind.bind, Except.bind]
  · have inv : ∀ (bs : List Breadcrumb) (t t' : Trajectory),
        t.public_key = pk →
        List.Sorted (fun a b => a.timestamp ≤ b.timestamp) t.breadcrumbs →
        (∀ x ∈ t.breadcrumbs, x.public_key = pk) →
        Trajectory.addAll t bs = .ok t' →
        List.Sorted (fun a b => a.timestamp ≤ b.timestamp) t'.breadcrumbs ∧
        ∀ x ∈ t'.breadcrumbs, x.public_key = pk := by
      intro bs
      induction bs with
      | nil =>
        intro t t' h1 h2 h3 h
        simp only [Trajectory.addAll, List.foldlM_nil] at h
        cases h
        exact ⟨h2, h3⟩
      | cons b rest ih =>
        intro t t' h1 h2 h3 h
        rcases hadd : t.add b with e | t1
        · simp [Trajectory.addAll, List.foldlM_cons, hadd, Bind.bind, Except.bind] at h
        · have hb : b.public_key = t.public_key := by
            by_contra hne
            simp [Trajectory.add, hne] at hadd
          obtain ⟨hpk', hsort', hmem'⟩ := trajectory_add_step t t1 b hadd
          have hrest : Trajectory.addAll t1 rest = .ok t' := by
            simpa [Trajectory.addAll, List.foldlM_cons, hadd, Bind.bind, Except.bind] using h
          refine ih t1 t' (hpk'.trans h1) hsort' ?_ hrest
          intro x hx
          rcases hmem' x hx with hx' | rfl
          · exact h3 x hx'
          · exact hb.trans h1
    intro bs t' h
    exact inv bs (Trajectory.new pk) t' rfl (by simp [Trajectory.new])
      (by simp [Trajectory.new]) h

/-- Witness for C6: a foreign breadcrumb is rejected with the
mismatched-owner error, a forged signature is rejected, and a concrete
successful sequence yields a sorted, owner-consistent trajectory. -/
theorem trajectory_add_witness :
    (Trajectory.add (Trajectory.new 5) (create_breadcrumb_from_h3 ⟨0, 0⟩ "c" 7 0)
      = .error (CryptoError.InvalidEnvelope "Breadcrumb public key doesn't match trajectory")) ∧
    (Trajectory.add (Trajectory.new 1) ⟨"c", 0, 1, ⟨2, ("c", 0, 1)⟩, 7⟩
      = .error CryptoError.SignatureVerificationFailed) ∧
    (List.Sorted (fun a b => a.timestamp ≤ b.timestamp)
        (⟨1, [create_breadcrumb_from_h3 ⟨0, 0⟩ "c" 7 0]⟩ : Trajectory).breadcrumbs ∧
      ∀ b ∈ (⟨1, [create_breadcrumb_from_h3 ⟨0, 0⟩ "c" 7 0]⟩ : Trajectory).breadcrumbs,
        b.public_key = 1) :=
  ⟨(trajectory_add_rejects_and_invariant 5).1 (Trajectory.new 5)
      (create_breadcrumb_from_h3 ⟨0, 0⟩ "c" 7 0) (by decide),
   (trajectory_add_rejects_and_invariant 1).2.1 (Trajectory.new 1)
      ⟨"c", 0, 1, ⟨2, ("c", 0, 1)⟩, 7⟩ (by decide) rfl,
   (trajectory_add_rejects_and_invariant 1).2.2
      [create_breadcrumb_from_h3 ⟨0, 0⟩ "c" 7 0]
      ⟨1, [create_breadcrumb_from_h3 ⟨0, 0⟩ "c" 7 0]⟩
      (by simp [Trajectory.addAll, List.foldlM_cons, List.foldlM_nil, Trajectory.add,
        Trajectory.new, verify_breadcrumb, verify_signature_hex, verify_signature,
        sign_message, GnsIdentity.sign_bytes, GnsIdentity.public_key_hex, edPublicKey,
        create_breadcrumb_from_h3, Bind.bind, Except.bind, Pure.pure, Except.pure,
        List.mergeSort_singleton])⟩

/-! ## `GnsEnvelope::is_for` — wire-level hex keys -/

/-- Rust `u8::to_ascii_lowercase`, on a character: map `A`-`Z` to
`a`-`z`, leave everything else alone. -/
def to_ascii_lowercase (c : Char) : Char :=
  if 'A' ≤ c ∧ c ≤ 'Z' then Char.ofNat (c.toNat + 32) else c

/-- Rust `str::eq_ignore_ascii_case`: equal length and pointwise equal
bytes after ASCII lowercasing. -/
def eq_ignore_ascii_case_chars : List Char → List Char → Bool
  | [], [] => true
  | a :: as, b :: bs =>
    (to_ascii_lowercase a == to_ascii_lowercase b) && eq_ignore_ascii_case_chars as bs
  | _, _ => false

/-- `str::eq_ignore_ascii_case` on strings. -/
def eq_ignore_ascii_case (a b : String) : Bool :=
  eq_ignore_ascii_case_chars a.data b.data

/-- `envelope.rs::GnsEnvelope::is_for` — the method reads only the
`to_public_keys` field, which at the wire level is a list of hex
strings; that field is the first argument here. -/
def GnsEnvelope.is_for (to_public_keys : List String) (public_key_hex : String) : Bool :=
  to_public_keys.any (fun k => eq_ignore_ascii_case k public_key_hex)

/-- Character-list comparison ignoring ASCII case is exactly equality of
the ASCII-lowercased lists. -/
theorem eq_ignore_ascii_case_chars_iff :
    ∀ a b : List Char, eq_ignore_ascii_case_chars a b = true ↔
      a.map to_ascii_lowercase = b.map to_ascii_lowercase
  | [], [] => by simp [eq_ignore_ascii_case_chars]
  | [], _ :: _ => by simp [eq_ignore_ascii_case_chars]
  | _ :: _, [] => by simp [eq_ignore_ascii_case_chars]
  | a :: as, b :: bs => by
    simp [eq_ignore_ascii_case_chars, Bool.and_eq_true,
      eq_ignore_ascii_case_chars_iff as bs]

/-- C10: `is_for` returns true iff some entry of `to_public_keys`
equals the queried key up to ASCII case. -/
theorem is_for_iff_mem_ignoring_case (to_public_keys : List String) (pk : String) :
    GnsEnvelope.is_for to_public_keys pk = true ↔
      ∃ k ∈ to_public_keys,
        k.data.map to_ascii_lowercase = pk.data.map to_ascii_lowercase := by
  simp [GnsEnvelope.is_for, List.any_eq_true, eq_ignore_ascii_case,
    eq_ignore_ascii_case_chars_iff]

/-! ## `storage/mod.rs` — thread upsert -/

/-- The columns of a `threads` row touched by the messaging paths. -/
structure ThreadRow where
  id : String
  participant_public_key : String
  participant_handle : Option String
  last_message_at : Int
  unread_count : Nat
  subject : Option String
  deriving DecidableEq

/-- `storage/mod.rs::get_or_create_thread` — the SQLite
`INSERT ... ON CONFLICT(id) DO UPDATE` upsert, as a function of the
existing row with this id (if any).  On conflict the update sets
`participant_handle = COALESCE(excluded.participant_handle, threads.participant_handle)`
(new value first) and `subject = COALESCE(threads.subject, excluded.subject)`
(old value first) and touches no other column. -/
def get_or_create_thread (existing : Option ThreadRow) (thread_id : String)
    (participant_public_key : String) (participant_handle : Option String)
    (subject : Option String) (now : Int) : ThreadRow :=
  match existing with
  | none =>
    { id := thread_id
      participant_public_key := participant_public_key
      participant_handle := participant_handle
      last_message_at := now
      unread_count := 0
      subject := subject }
  | some row =>
    { row with
      participant_handle := participant_handle.or row.participant_handle
      subject := row.subject.or subject }

/-- `storage/mod.rs::update_thread_for_message`. -/
def update_thread_for_message (row : ThreadRow) (timestamp : Int)
    (is_incoming : Bool) : ThreadRow :=
  if is_incoming then
    { row with last_message_at := timestamp, unread_count := row.unread_count + 1 }
  else
    { row with last_message_at := timestamp }

/-- `storage/mod.rs::save_received_message`, restricted to its effect on
the thread row (the `messages` insert does not touch `threads`): upsert
the thread with the sender's key, handle and the payload's subject, then
bump `last_message_at` and the unread count. -/
def save_received_message_thread (existing : Option ThreadRow)
    (thread_id from_public_key : String) (from_handle : Option String)
    (subject : Option String) (timestamp : Int) (now : Int) : ThreadRow :=
  update_thread_for_message
    (get_or_create_thread existing thread_id from_public_key from_handle subject now)
    timestamp true

/-- `storage/mod.rs::save_sent_message`, restricted to its effect on the
thread row: upsert with the recipient's key, the caller's handle and the
payload's subject, then update `last_message_at` only. -/
def save_sent_message_thread (existing : Option ThreadRow)
    (thread_id recipient_public_key : String) (recipient_handle : Option String)
    (subject : Option String) (timestamp : Int) (now : Int) : ThreadRow :=
  update_thread_for_message
    (get_or_create_thread existing thread_id recipient_public_key recipient_handle subject
      now)
    timestamp false

/-- C7 counterexample: upserting an existing thread row that already has
`participant_handle = some "alice"` with a new handle `some "bob"`
overwrites the existing handle — it is not preserved, contradicting the
claim. -/
theorem thread_upsert_overwrites_handle_counterexample :
    (save_received_message_thread
        (some ⟨"t1", "pk", some "alice", 0, 0, some "subj"⟩)
        "t1" "pk" (some "bob") (some "new-subj") 5 6).participant_handle
      = some "bob" ∧
    (save_received_message_thread
        (some ⟨"t1", "pk", some "alice", 0, 0, some "subj"⟩)
        "t1" "pk" (some "bob") (some "new-subj") 5 6).participant_handle
      ≠ some "alice" := by
  constructor <;> decide

/-- C7 (amended): on an upsert of an existing thread row by
`save_sent_message` or `save_received_message`, the existing `subject`
is preserved whenever it is set and the new subject is taken only when
it is unset; `participant_handle`, by contrast, takes the newly supplied
value whenever one is supplied, the existing value being kept only when
the new value is null. -/
theorem thread_upsert_coalesce (row : ThreadRow) (tid pk : String)
    (handle subject : Option String) (ts now : Int) :
    (∀ s0, row.subject = some s0 →
      (save_received_message_thread (some row) tid pk handle subject ts now).subject
          = some s0 ∧
      (save_sent_message_thread (some row) tid pk handle subject ts now).subject
          = some s0) ∧
    (row.subject = none →
      (save_received_message_thread (some row) tid pk handle subject ts now).subject
          = subject ∧
      (save_sent_message_thread (some row) tid pk handle subject ts now).subject
          = subject) ∧
    (∀ h0, handle = some h0 →
      (save_received_message_thread (some row) tid pk handle subject ts now).participant_handle
          = some h0 ∧
      (save_sent_message_thread (some row) tid pk handle subject ts now).participant_handle
          = some h0) ∧
    (handle = none →
      (save_received_message_thread (some row) tid pk handle subject ts now).participant_handle
          = row.participant_handle ∧
      (save_sent_message_thread (some row) tid pk handle subject ts now).participant_handle
          = row.participant_handle) := by
  refine ⟨?_, ?_, ?_, ?_⟩
  · intro s0 hs
    constructor <;>
      simp [save_received_message_thread, save_sent_message_thread,
        get_or_create_thread, update_thread_for_message, hs, Option.or]
  · intro hs
    constructor <;>
      simp [save_received_message_thread, save_sent_message_thread,
        get_or_create_thread, update_thread_for_message, hs, Option.or]
  · intro h0 hh
    constructor <;>
      simp [save_received_message_thread, save_sent_message_thread,
        get_or_create_thread, update_thread_for_message, hh, Option.or]
  · intro hh
    constructor <;>
      simp [save_received_message_thread, save_sent_message_thread,
        get_or_create_thread, update_thread_for_message, hh, Option.or]

/-- Witness for C7's amended statement at a concrete row. -/
theorem thread_upsert_coalesce_witness :
    (save_received_message_thread
        (some ⟨"t1", "pk", some "alice", 0, 0, some "subj"⟩)
        "t1" "pk" (some "bob") (some "new-subj") 5 6).subject = some "subj" ∧
    (save_sent_message_thread
        (some ⟨"t1", "pk", some "alice", 0, 0, some "subj"⟩)
        "t1" "pk" (some "bob") (some "new-subj") 5 6).subject = some "subj" :=
  (thread_upsert_coalesce ⟨"t1", "pk", some "alice", 0, 0, some "subj"⟩
      "t1" "pk" (some "bob") (some "new-subj") 5 6).1 "subj" rfl

/-! ## `identity.rs` — byte-level key derivation and import

Here bytes are explicit (`List Nat`, values `< 256` where it matters).
The SHA-512 compression of the `sha2` crate and the X25519 base-point
multiplication of `x25519_dalek` are opaque external functions, taken as
parameters. -/

/-- `identity.rs::ed25519_to_x25519_secret` — SHA-512 the signing seed,
take the first 32 bytes, clamp: `x[0] &= 248; x[31] &= 127; x[31] |= 64`. -/
def ed25519_to_x25519_secret (sha512 : List Nat → List Nat)
    (ed25519_secret : List Nat) : List Nat :=
  let hash := sha512 ed25519_secret
  let x0 := hash.take 32
  let x1 := x0.set 0 (x0.getD 0 0 &&& 248)
  let x2 := x1.set 31 ((x1.getD 31 0 &&& 127) ||| 64)
  x2

/-- Byte-level view of `identity.rs::GnsIdentity` (the cached fields set
by `from_signing_key`). -/
structure ByteIdentity where
  signing_key : List Nat
  x25519_secret : List Nat
  x25519_public : List Nat
  deriving DecidableEq

/-- `identity.rs::from_signing_key`, byte-level: derive the X25519
secret from the signing seed and cache the derived public value. -/
def from_signing_key (sha512 x25519_base_mult : List Nat → List Nat)
    (signing_key : List Nat) : ByteIdentity :=
  let x25519_secret := ed25519_to_x25519_secret sha512 signing_key
  { signing_key := signing_key
    x25519_secret := x25519_secret
    x25519_public := x25519_base_mult x25519_secret }

/-- C4: the derived key-agreement secret is `clamp(SHA512(s)[0..32])`
with the standard X25519 clamping — bit-for-bit: the low 3 bits of byte
0 are cleared, bit 7 of byte 31 (bit 255) is cleared, bit 6 of byte 31
(bit 254) is set, and every other bit equals the corresponding SHA-512
output bit; consequently two identities built from the same seed carry
bitwise-identical key-agreement public values. -/
theorem x25519_secret_derivation (sha512 x25519_base_mult : List Nat → List Nat)
    (s : List Nat) (hlen : (sha512 s).length = 64) :
    (ed25519_to_x25519_secret sha512 s).length = 32 ∧
    (∀ i < 32, ∀ j < 8,
      ((ed25519_to_x25519_secret sha512 s).getD i 0).testBit j =
        if i = 0 ∧ j < 3 then false
        else if i = 31 ∧ j = 7 then false
        else if i = 31 ∧ j = 6 then true
        else ((sha512 s).getD i 0).testBit j) ∧
    (∀ id1 id2 : ByteIdentity,
      id1 = from_signing_key sha512 x25519_base_mult s →
      id2 = from_signing_key sha512 x25519_base_mult s →
      id1.x25519_public = id2.x25519_public) := by
  have hlen32 : ((sha512 s).take 32).length = 32 := by
    simp [List.length_take, hlen]
  have h248 : ∀ j, j < 8 → Nat.testBit 248 j = decide (3 ≤ j) := by
    intro j hj; interval_cases j <;> decide
  have h127 : ∀ j, j < 8 → Nat.testBit 127 j = decide (j ≤ 6) := by
    intro j hj; interval_cases j <;> decide
  have h64 : ∀ j, j < 8 → Nat.testBit 64 j = decide (j = 6) := by
    intro j hj; interval_cases j <;> decide
  have htake : ∀ i, i < 32 → ((sha512 s).take 32).getD i 0 = (sha512 s).getD i 0 := by
    intro i hi
    simp [List.getD_eq_getElem?_getD, List.getElem?_take, hi]
  refine ⟨?_, ?_, ?_⟩
  · simp [ed25519_to_x25519_secret, List.length_set, hlen32]
  · intro i hi j hj
    by_cases hi0 : i = 0
    · subst hi0
      have hv : (ed25519_to_x25519_secret sha512 s).getD 0 0
          = (sha512 s).getD 0 0 &&& 248 := by
        simp [ed25519_to_x25519_secret, List.getD_eq_getElem?_getD,
          List.getElem?_set_self, List.getElem?_set_ne, List.getElem?_take,
          List.length_set, List.length_take, hlen]
      rw [hv, Nat.testBit_land, h248 j hj]
      by_cases hj3 : j < 3
      · simp [hj3]
      · simp [hj3, show ¬(0 : Nat) = 31 by omega]
        omega
    · by_cases hi31 : i = 31
      · subst hi31
        have hv : (ed25519_to_x25519_secret sha512 s).getD 31 0
            = ((sha512 s).getD 31 0 &&& 127) ||| 64 := by
          simp [ed25519_to_x25519_secret, List.getD_eq_getElem?_getD,
            List.getElem?_set_self, List.getElem?_set_ne, List.getElem?_take,
            List.length_set, List.length_take, hlen]
        rw [hv, Nat.testBit_lor, Nat.testBit_land, h127 j hj, h64 j hj]
        by_cases hj7 : j = 7
        · simp [hj7]
        · by_cases hj6 : j = 6
          · simp [hj6]
          · simp [hj6, hj7, show j ≤ 6 by omega, show ¬(31 = 0 ∧ j < 3) by omega]
      · have hv : (ed25519_to_x25519_secret sha512 s).getD i 0
            = (sha512 s).getD i 0 := by
          simp [ed25519_to_x25519_secret, List.getD_eq_getElem?_getD,
            List.getElem?_set_ne (show (31 : Nat) ≠ i from fun h => hi31 h.symm),
            List.getElem?_set_ne (show (0 : Nat) ≠ i from fun h => hi0 h.symm),
            List.getElem?_take, hi]
        rw [hv]
        simp [hi0, hi31]
  · intro id1 id2 h1 h2
    rw [h1, h2]

/-- Witness for C4 with a concrete (dummy) external hash of the right
output length. -/
theorem x25519_secret_derivation_witness :
    (List.replicate 64 255).length = 64 ∧
    (ed25519_to_x25519_secret (fun _ => List.replicate 64 255) []).length = 32 :=
  ⟨by decide,
    (x25519_secret_derivation (fun _ => List.replicate 64 255) id [] (by decide)).1⟩

/-! ## `identity.rs::from_hex` and the `hex` crate -/

/-- Hex digit value (`hex` crate): `0`-`9`, `a`-`f`, `A`-`F`. -/
def hex_digit_value (c : Char) : Option Nat :=
  if '0' ≤ c ∧ c ≤ '9' then some (c.toNat - '0'.toNat)
  else if 'a' ≤ c ∧ c ≤ 'f' then some (c.toNat - 'a'.toNat + 10)
  else if 'A' ≤ c ∧ c ≤ 'F' then some (c.toNat - 'A'.toNat + 10)
  else none

/-- `hex::decode` of the external `hex` crate: two hex digits per byte;
an odd-length input or a non-hex character fails (`OddLength` /
`InvalidHexCharacter`, both converted to `CryptoError::InvalidHex` by
the spec-modelled `errors.rs`, see `CryptoError`). -/
def hex_decode_chars : List Char → Except CryptoError (List Nat)
  | [] => .ok []
  | [_] => .error CryptoError.InvalidHex
  | c1 :: c2 :: rest =>
    match hex_digit_value c1, hex_digit_value c2, hex_decode_chars rest with
    | some h, some l, .ok bytes => .ok ((16 * h + l) :: bytes)
    | _, _, _ => .error CryptoError.InvalidHex

/-- `hex::decode` on a string. -/
def hex_decode (s : String) : Except CryptoError (List Nat) :=
  hex_decode_chars s.data

/-- `identity.rs::GnsIdentity::from_hex`, byte-level: hex-decode first
(propagating the hex error), then require exactly 32 bytes, then build
the identity via `from_bytes`/`from_signing_key`. -/
def from_hex (sha512 x25519_base_mult : List Nat → List Nat)
    (private_key_hex : String) : Except CryptoError ByteIdentity :=
  match hex_decode private_key_hex with
  | .error e => .error e
  | .ok bytes =>
    if bytes.length ≠ 32 then
      .error (CryptoError.InvalidKeyLength 32 bytes.length)
    else
      .ok (from_signing_key sha512 x25519_base_mult bytes)

/-- Successful hex decoding consumes two characters per byte. -/
theorem hex_decode_chars_length :
    ∀ (l : List Char) (bytes : List Nat),
      hex_decode_chars l = .ok bytes → 2 * bytes.length = l.length
  | [], bytes, h => by
    simp only [hex_decode_chars] at h
    cases h
    rfl
  | [_], bytes, h => by simp [hex_decode_chars] at h
  | c1 :: c2 :: rest, bytes, h => by
    rcases h1 : hex_digit_value c1 with _ | v1 <;>
      rcases h2 : hex_digit_value c2 with _ | v2 <;>
      rcases hr : hex_decode_chars rest with e | bs <;>
      simp [hex_decode_chars, h1, h2, hr] at h
    subst h
    have := hex_decode_chars_length rest bs hr
    simp only [List.length_cons]
    omega

/-- Hex decoding succeeds on any even-length all-hex-digit input. -/
theorem hex_decode_chars_ok :
    ∀ l : List Char, (∀ c ∈ l, (hex_digit_value c).isSome = true) →
      l.length % 2 = 0 → ∃ bytes, hex_decode_chars l = .ok bytes
  | [], _, _ => ⟨[], rfl⟩
  | [c], _, hev => by simp at hev
  | c1 :: c2 :: rest, hall, hev => by
    obtain ⟨v1, hv1⟩ := Option.isSome_iff_exists.mp (hall c1 (by simp))
    obtain ⟨v2, hv2⟩ := Option.isSome_iff_exists.mp (hall c2 (by simp))
    obtain ⟨bs, hbs⟩ := hex_decode_chars_ok rest
      (fun c hc => hall c (by simp [hc]))
      (by simp only [List.length_cons] at hev; omega)
    exact ⟨(16 * v1 + v2) :: bs, by simp [hex_decode_chars, hv1, hv2, hbs]⟩

/-- The only error `hex_decode_chars` ever produces is `InvalidHex`
(odd length and invalid character both convert to it). -/
theorem hex_decode_chars_error_eq :
    ∀ (l : List Char) (e : CryptoError),
      hex_decode_chars l = .error e → e = CryptoError.InvalidHex
  | [], e, h => by simp [hex_decode_chars] at h
  | [_], e, h => by
    simp only [hex_decode_chars] at h
    cases h
    rfl
  | c1 :: c2 :: rest, e, h => by
    rcases h1 : hex_digit_value c1 with _ | v1 <;>
      rcases h2 : hex_digit_value c2 with _ | v2 <;>
      rcases hr : hex_decode_chars rest with e' | bs <;>
      simp [hex_decode_chars, h1, h2, hr] at h <;>
      exact h.symm

/-- Successful hex decoding certifies every character as a hex digit. -/
theorem hex_decode_chars_all_hex :
    ∀ (l : List Char) (bytes : List Nat), hex_decode_chars l = .ok bytes →
      ∀ c ∈ l, (hex_digit_value c).isSome = true
  | [], _, _ => by simp
  | [_], bytes, h => by simp [hex_decode_chars] at h
  | c1 :: c2 :: rest, bytes, h => by
    rcases h1 : hex_digit_value c1 with _ | v1 <;>
      rcases h2 : hex_digit_value c2 with _ | v2 <;>
      rcases hr : hex_decode_chars rest with e | bs <;>
      simp [hex_decode_chars, h1, h2, hr] at h
    intro c hc
    rcases List.mem_cons.mp hc with rfl | hc'
    · simp [h1]
    · rcases List.mem_cons.mp hc' with rfl | hc''
      · simp [h2]
      · exact hex_decode_chars_all_hex rest bs hr c hc''

/-- C8 counterexample: `from_hex "zz"` has the wrong length (2 ≠ 64) but
fails with `InvalidHex` — the hex decode runs before the length check —
not with the `InvalidKeyLength` kind the claim asserts. -/
theorem from_hex_invalid_hex_counterexample :
    "zz".length ≠ 64 ∧
    from_hex (fun _ => List.replicate 64 0) id "zz" = .error CryptoError.InvalidHex := by
  constructor
  · decide
  · rfl

/-- C8 (amended): `from_hex` fails for every input whose length is not
64; the failure kind is `InvalidKeyLength{expected: 32, got: n/2}` when
the input is a well-formed hex string (even length, hex digits only) and
a hex-decoding error otherwise; and it succeeds on every 64-character
hex-digit string. -/
theorem from_hex_length_behavior (sha512 x25519_base_mult : List Nat → List Nat)
    (s : String) :
    (s.length ≠ 64 → ∃ e, from_hex sha512 x25519_base_mult s = .error e) ∧
    (s.length ≠ 64 → s.length % 2 = 0 →
      (∀ c ∈ s.data, (hex_digit_value c).isSome = true) →
      from_hex sha512 x25519_base_mult s
        = .error (CryptoError.InvalidKeyLength 32 (s.length / 2))) ∧
    (s.length ≠ 64 →
      ¬(s.length % 2 = 0 ∧ ∀ c ∈ s.data, (hex_digit_value c).isSome = true) →
      from_hex sha512 x25519_base_mult s = .error CryptoError.InvalidHex) ∧
    (s.length = 64 → (∀ c ∈ s.data, (hex_digit_value c).isSome = true) →
      ∃ idy, from_hex sha512 x25519_base_mult s = .ok idy) := by
  have hlen : s.length = s.data.length := rfl
  refine ⟨?_, ?_, ?_, ?_⟩
  · intro hne
    rcases hd : hex_decode_chars s.data with e | bytes
    · exact ⟨e, by simp [from_hex, hex_decode, hd]⟩
    · have h2 := hex_decode_chars_length s.data bytes hd
      have hb : bytes.length ≠ 32 := by omega
      exact ⟨CryptoError.InvalidKeyLength 32 bytes.length, by
        simp [from_hex, hex_decode, hd, hb]⟩
  · intro hne hev hall
    obtain ⟨bytes, hd⟩ := hex_decode_chars_ok s.data hall (by omega)
    have h2 := hex_decode_chars_length s.data bytes hd
    have hb : bytes.length ≠ 32 := by omega
    have hq : bytes.length = s.length / 2 := by omega
    rw [← hq]
    simp [from_hex, hex_decode, hd, hb]
  · intro _hne hnotwf
    rcases hd : hex_decode_chars s.data with e | bytes
    · have he := hex_decode_chars_error_eq s.data e hd
      subst he
      simp [from_hex, hex_decode, hd]
    · exfalso
      apply hnotwf
      refine ⟨?_, hex_decode_chars_all_hex s.data bytes hd⟩
      have h2 := hex_decode_chars_length s.data bytes hd
      omega
  · intro h64 hall
    obtain ⟨bytes, hd⟩ := hex_decode_chars_ok s.data hall (by omega)
    have h2 := hex_decode_chars_length s.data bytes hd
    exact ⟨from_signing_key sha512 x25519_base_mult bytes, by
      simp [from_hex, hex_decode, hd, show bytes.length = 32 by omega]⟩

/-- Witness for C8's amended statement: a valid 8-char hex string of the
wrong length gets `InvalidKeyLength 32 4`, an even-length string with a
non-hex character gets `InvalidHex`, and a 64-char hex string succeeds. -/
theorem from_hex_length_behavior_witness :
    ("00ff00ff".length ≠ 64 ∧ "00ff00ff".length % 2 = 0 ∧
      from_hex (fun _ => List.replicate 64 0) id "00ff00ff"
        = .error (CryptoError.InvalidKeyLength 32 ("00ff00ff".length / 2))) ∧
    ("0z".length ≠ 64 ∧
      from_hex (fun _ => List.replicate 64 0) id "0z"
        = .error CryptoError.InvalidHex) ∧
    (("0123456789abcdef0123456789abcdef0123456789abcdef0123456789abcdef" :
        String).length = 64 ∧
      ∃ idy, from_hex (fun _ => List.replicate 64 0) id
          "0123456789abcdef0123456789abcdef0123456789abcdef0123456789abcdef"
        = .ok idy) :=
  ⟨⟨by decide, by decide,
    (from_hex_length_behavior (fun _ => List.replicate 64 0) id "00ff00ff").2.1
      (by decide) (by decide) (by decide)⟩,
   ⟨by decide,
    (from_hex_length_behavior (fun _ => List.replicate 64 0) id "0z").2.2.1
      (by decide) (by decide)⟩,
   ⟨by decide,
    (from_hex_length_behavior (fun _ => List.replicate 64 0) id
        "0123456789abcdef0123456789abcdef0123456789abcdef0123456789abcdef").2.2.2
      (by decide) (by decide)⟩⟩

/-! ## `message_handler.rs::normalize_subject`

Rust's `str::trim`/`trim_start` remove Unicode whitespace and
`str::to_lowercase` performs Unicode lowercasing; both are modelled on
the ASCII range (`Char.isWhitespace`, `to_ascii_lowercase`), which
covers every character the subject-threading code distinguishes. -/

/-- `str::trim_start`. -/
def trim_start_chars (l : List Char) : List Char :=
  l.dropWhile Char.isWhitespace

/-- `str::trim_end`. -/
def trim_end_chars (l : List Char) : List Char :=
  (l.reverse.dropWhile Char.isWhitespace).reverse

/-- `str::trim`. -/
def trim_chars (l : List Char) : List Char :=
  trim_end_chars (trim_start_chars l)

/-- The prefix-stripping loop of `normalize_subject`.  The Rust `loop`
exits when the length stops changing, which happens exactly when no
marker matched; every match shortens the string by at least three
characters, so the initial length bounds the number of iterations and
the explicit fuel below never runs out. -/
def strip_subject_markers_go : Nat → List Char → List Char
  | 0, s => s
  | fuel + 1, s =>
    if "re:".data.isPrefixOf s then
      strip_subject_markers_go fuel (trim_start_chars (s.drop 3))
    else if "fwd:".data.isPrefixOf s then
      strip_subject_markers_go fuel (trim_start_chars (s.drop 4))
    else if "fw:".data.isPrefixOf s then
      strip_subject_markers_go fuel (trim_start_chars (s.drop 3))
    else s

/-- The stripping loop at its sufficient fuel. -/
def strip_subject_markers (s : List Char) : List Char :=
  strip_subject_markers_go s.length s

/-- `message_handler.rs::normalize_subject`: trim, lowercase, then strip
leading `re:`/`fwd:`/`fw:` markers to a fixed point. -/
def normalize_subject (subject : String) : String :=
  String.mk (strip_subject_markers ((trim_chars subject.data).map to_ascii_lowercase))

/-- Characters are determined by their code point. -/
theorem char_eq_iff_toNat_eq {c d : Char} : c = d ↔ c.toNat = d.toNat :=
  ⟨fun h => congrArg Char.toNat h, fun h => Char.ext (UInt32.ext h)⟩

/-- The whitespace test, by code point. -/
theorem isWhitespace_iff_toNat (c : Char) :
    c.isWhitespace = true ↔
      c.toNat = 32 ∨ c.toNat = 9 ∨ c.toNat = 13 ∨ c.toNat = 10 := by
  unfold Char.isWhitespace
  simp only [Bool.or_eq_true, decide_eq_true_eq]
  rw [char_eq_iff_toNat_eq, char_eq_iff_toNat_eq, char_eq_iff_toNat_eq,
    char_eq_iff_toNat_eq]
  have hsp : (' ').toNat = 32 := rfl
  have htab : ('\t').toNat = 9 := rfl
  have hcr : ('\r').toNat = 13 := rfl
  have hlf : ('\n').toNat = 10 := rfl
  rw [hsp, htab, hcr, hlf]
  tauto

/-- The code point of `Char.ofNat` at a valid scalar value. -/
theorem char_toNat_ofNat {n : Nat} (h : n.isValidChar) : (Char.ofNat n).toNat = n := by
  simp [Char.ofNat, h, Char.toNat, Char.ofNatAux, UInt32.toNat, BitVec.toNat_ofNatLt]

/-- Lowercasing an ASCII capital adds 32 to the code point. -/
theorem to_ascii_lowercase_upper {c : Char} (h : 'A' ≤ c ∧ c ≤ 'Z') :
    (to_ascii_lowercase c).toNat = c.toNat + 32 := by
  have h1 : 65 ≤ c.toNat := h.1
  have h2 : c.toNat ≤ 90 := h.2
  have hv : (c.toNat + 32).isValidChar := Or.inl (by omega)
  unfold to_ascii_lowercase
  rw [if_pos h]
  exact char_toNat_ofNat hv

/-- Lowercasing a non-capital is the identity. -/
theorem to_ascii_lowercase_eq_self {c : Char} (h : ¬('A' ≤ c ∧ c ≤ 'Z')) :
    to_ascii_lowercase c = c := by
  unfold to_ascii_lowercase
  rw [if_neg h]

/-- ASCII lowercasing is idempotent. -/
theorem to_ascii_lowercase_idem (c : Char) :
    to_ascii_lowercase (to_ascii_lowercase c) = to_ascii_lowercase c := by
  by_cases h : 'A' ≤ c ∧ c ≤ 'Z'
  · have ht := to_ascii_lowercase_upper h
    have h1 : 65 ≤ c.toNat := h.1
    have h2 : c.toNat ≤ 90 := h.2
    refine to_ascii_lowercase_eq_self ?_
    rintro ⟨ha, hb⟩
    have h3 : 65 ≤ (to_ascii_lowercase c).toNat := ha
    have h4 : (to_ascii_lowercase c).toNat ≤ 90 := hb
    omega
  · rw [to_ascii_lowercase_eq_self h, to_ascii_lowercase_eq_self h]

/-- ASCII lowercasing does not create or destroy whitespace. -/
theorem to_ascii_lowercase_isWhitespace (c : Char) :
    (to_ascii_lowercase c).isWhitespace = c.isWhitespace := by
  by_cases h : 'A' ≤ c ∧ c ≤ 'Z'
  · have ht := to_ascii_lowercase_upper h
    have h1 : 65 ≤ c.toNat := h.1
    have h2 : c.toNat ≤ 90 := h.2
    have hws1 : (to_ascii_lowercase c).isWhitespace = false := by
      rw [Bool.eq_false_iff]
      intro hw
      rw [isWhitespace_iff_toNat] at hw
      omega
    have hws2 : c.isWhitespace = false := by
      rw [Bool.eq_false_iff]
      intro hw
      rw [isWhitespace_iff_toNat] at hw
      omega
    rw [hws1, hws2]
  · rw [to_ascii_lowercase_eq_self h]

/-- `dropWhile` is idempotent. -/
theorem dropWhile_dropWhile (p : Char → Bool) :
    ∀ l : List Char, (l.dropWhile p).dropWhile p = l.dropWhile p
  | [] => rfl
  | c :: r => by
    rw [List.dropWhile_cons]
    by_cases h : p c
    · simp only [h, if_true]
      exact dropWhile_dropWhile p r
    · simp [List.dropWhile_cons, h]

/-- A list is `trim_start`-fixed iff its head is not whitespace. -/
theorem trim_start_eq_self_iff (l : List Char) :
    trim_start_chars l = l ↔
      ∀ c, l.head? = some c → c.isWhitespace = false := by
  cases l with
  | nil => simp [trim_start_chars]
  | cons c r =>
    constructor
    · intro heq c' hc'
      have hcc : c = c' := by simpa using hc'
      subst hcc
      rw [Bool.eq_false_iff]
      intro hw
      have hstep : trim_start_chars (c :: r) = r.dropWhile Char.isWhitespace := by
        simp [trim_start_chars, List.dropWhile_cons, hw]
      rw [hstep] at heq
      have hlen := (List.dropWhile_suffix (l := r) Char.isWhitespace).length_le
      rw [heq] at hlen
      simp at hlen
    · intro hws
      have hw : c.isWhitespace = false := hws c rfl
      simp [trim_start_chars, List.dropWhile_cons, hw]

/-- A non-empty prefix shares its head with the longer list. -/
theorem head?_eq_of_prefixed {q r : List Char} (h : q <+: r) (hne : q ≠ []) :
    r.head? = q.head? := by
  obtain ⟨t, rfl⟩ := h
  cases q with
  | nil => exact absurd rfl hne
  | cons c q' => rfl

/-- `trim_start`-fixedness passes to prefixes. -/
theorem trim_start_of_prefixed {q r : List Char} (h : q <+: r)
    (hr : trim_start_chars r = r) : trim_start_chars q = q := by
  rw [trim_start_eq_self_iff] at hr ⊢
  intro c hc
  have hne : q ≠ [] := by
    intro hnil
    rw [hnil] at hc
    cases hc
  refine hr c ?_
  rw [head?_eq_of_prefixed h hne]
  exact hc

/-- `trim_start`-fixedness survives ASCII lowercasing. -/
theorem trim_start_map_lower {l : List Char} (h : trim_start_chars l = l) :
    trim_start_chars (l.map to_ascii_lowercase) = l.map to_ascii_lowercase := by
  rw [trim_start_eq_self_iff] at h ⊢
  intro c hc
  rw [List.head?_map] at hc
  rcases hh : l.head? with _ | c0
  · rw [hh] at hc
    cases hc
  · rw [hh] at hc
    obtain rfl : to_ascii_lowercase c0 = c := by simpa using hc
    rw [to_ascii_lowercase_isWhitespace]
    exact h c0 hh

/-- `trim_end` produces a prefix. -/
theorem trim_end_prefixed (l : List Char) : trim_end_chars l <+: l := by
  refine List.reverse_suffix.mp ?_
  rw [trim_end_chars, List.reverse_reverse]
  exact List.dropWhile_suffix _

/-- `trim_end`-fixedness is `trim_start`-fixedness of the reversal. -/
theorem trim_end_eq_self_iff (l : List Char) :
    trim_end_chars l = l ↔ trim_start_chars l.reverse = l.reverse := by
  unfold trim_end_chars trim_start_chars
  constructor
  · intro h
    conv_rhs => rw [← h]
    rw [List.reverse_reverse]
  · intro h
    rw [h, List.reverse_reverse]

/-- The stripping loop only ever drops characters from the front. -/
theorem strip_go_suffix : ∀ (fuel : Nat) (s : List Char),
    strip_subject_markers_go fuel s <:+ s
  | 0, s => List.suffix_refl s
  | fuel + 1, s => by
    unfold strip_subject_markers_go
    by_cases h1 : "re:".data.isPrefixOf s
    · rw [if_pos h1]
      exact (strip_go_suffix fuel _).trans
        ((List.dropWhile_suffix _).trans (List.drop_suffix 3 s))
    · rw [if_neg h1]
      by_cases h2 : "fwd:".data.isPrefixOf s
      · rw [if_pos h2]
        exact (strip_go_suffix fuel _).trans
          ((List.dropWhile_suffix _).trans (List.drop_suffix 4 s))
      · rw [if_neg h2]
        by_cases h3 : "fw:".data.isPrefixOf s
        · rw [if_pos h3]
          exact (strip_go_suffix fuel _).trans
            ((List.dropWhile_suffix _).trans (List.drop_suffix 3 s))
        · rw [if_neg h3]

/-- With adequate fuel, the stripping loop reaches its fixed point: no
marker remains at the front of the output. -/
theorem strip_go_no_marker : ∀ (fuel : Nat) (s : List Char), s.length ≤ fuel →
    "re:".data.isPrefixOf (strip_subject_markers_go fuel s) = false ∧
    "fwd:".data.isPrefixOf (strip_subject_markers_go fuel s) = false ∧
    "fw:".data.isPrefixOf (strip_subject_markers_go fuel s) = false
  | 0, s, h => by
    have hnil : s = [] := List.length_eq_zero.mp (by omega)
    subst hnil
    exact ⟨rfl, rfl, rfl⟩
  | fuel + 1, s, h => by
    unfold strip_subject_markers_go
    by_cases h1 : "re:".data.isPrefixOf s
    · rw [if_pos h1]
      have hp : ("re:".data).length ≤ s.length :=
        ( List.isPrefixOf_iff_prefix.mp h1).length_le
      have hp3 : 3 ≤ s.length := by simpa using hp
      refine strip_go_no_marker fuel _ ?_
      have hd := (List.dropWhile_suffix (l := s.drop 3) Char.isWhitespace).length_le
      rw [List.length_drop] at hd
      simp only [trim_start_chars]
      omega
    · rw [if_neg h1]
      by_cases h2 : "fwd:".data.isPrefixOf s
      · rw [if_pos h2]
        have hp : ("fwd:".data).length ≤ s.length :=
          ( List.isPrefixOf_iff_prefix.mp h2).length_le
        have hp4 : 4 ≤ s.length := by simpa using hp
        refine strip_go_no_marker fuel _ ?_
        have hd := (List.dropWhile_suffix (l := s.drop 4) Char.isWhitespace).length_le
        rw [List.length_drop] at hd
        simp only [trim_start_chars]
        omega
      · rw [if_neg h2]
        by_cases h3 : "fw:".data.isPrefixOf s
        · rw [if_pos h3]
          have hp : ("fw:".data).length ≤ s.length :=
            ( List.isPrefixOf_iff_prefix.mp h3).length_le
          have hp3 : 3 ≤ s.length := by simpa using hp
          refine strip_go_no_marker fuel _ ?_
          have hd := (List.dropWhile_suffix (l := s.drop 3) Char.isWhitespace).length_le
          rw [List.length_drop] at hd
          simp only [trim_start_chars]
          omega
        · rw [if_neg h3]
          exact ⟨Bool.eq_false_iff.mpr h1, Bool.eq_false_iff.mpr h2,
            Bool.eq_false_iff.mpr h3⟩

/-- A string with no marker at the front is a fixed point of the loop,
whatever fuel is available. -/
theorem strip_go_of_no_marker (fuel : Nat) (s : List Char)
    (h1 : "re:".data.isPrefixOf s = false) (h2 : "fwd:".data.isPrefixOf s = false)
    (h3 : "fw:".data.isPrefixOf s = false) :
    strip_subject_markers_go fuel s = s := by
  cases fuel with
  | zero => rfl
  | succ fuel => simp [strip_subject_markers_go, h1, h2, h3]

/-- The stripping loop preserves `trim_start`-fixedness. -/
theorem strip_go_trim_start : ∀ (fuel : Nat) (s : List Char),
    trim_start_chars s = s →
    trim_start_chars (strip_subject_markers_go fuel s)
      = strip_subject_markers_go fuel s
  | 0, _, h => h
  | fuel + 1, s, h => by
    unfold strip_subject_markers_go
    by_cases h1 : "re:".data.isPrefixOf s
    · rw [if_pos h1]
      exact strip_go_trim_start fuel _ (dropWhile_dropWhile _ _)
    · rw [if_neg h1]
      by_cases h2 : "fwd:".data.isPrefixOf s
      · rw [if_pos h2]
        exact strip_go_trim_start fuel _ (dropWhile_dropWhile _ _)
      · rw [if_neg h2]
        by_cases h3 : "fw:".data.isPrefixOf s
        · rw [if_pos h3]
          exact strip_go_trim_start fuel _ (dropWhile_dropWhile _ _)
        · rw [if_neg h3]
          exact h

/-- The character list produced by `normalize_subject` is a fixed point
of trimming, lowercasing and marker-stripping. -/
theorem normalized_chars_fixed (l : List Char) :
    trim_chars (strip_subject_markers ((trim_chars l).map to_ascii_lowercase))
        = strip_subject_markers ((trim_chars l).map to_ascii_lowercase) ∧
    (strip_subject_markers ((trim_chars l).map to_ascii_lowercase)).map
        to_ascii_lowercase
        = strip_subject_markers ((trim_chars l).map to_ascii_lowercase) ∧
    strip_subject_markers (strip_subject_markers ((trim_chars l).map to_ascii_lowercase))
        = strip_subject_markers ((trim_chars l).map to_ascii_lowercase) := by
  set m : List Char := (trim_chars l).map to_ascii_lowercase with hm
  set o : List Char := strip_subject_markers m with ho
  have hsuf : o <:+ m := strip_go_suffix m.length m
  have hmap_m : m.map to_ascii_lowercase = m := by
    rw [hm, List.map_map]
    exact List.map_congr_left fun c _ => to_ascii_lowercase_idem c
  have hmap_o : o.map to_ascii_lowercase = o := by
    obtain ⟨t, ht⟩ := hsuf
    have happ : (t.map to_ascii_lowercase) ++ (o.map to_ascii_lowercase) = t ++ o := by
      rw [← List.map_append, ht, hmap_m]
    exact (List.append_inj happ (by simp)).2
  have hm_start : trim_start_chars m = m := by
    rw [hm]
    exact trim_start_map_lower
      (trim_start_of_prefixed (trim_end_prefixed _) (dropWhile_dropWhile _ _))
  have hm_end : trim_end_chars m = m := by
    rw [trim_end_eq_self_iff, hm, ← List.map_reverse]
    refine trim_start_map_lower ?_
    have hrev : (trim_chars l).reverse
        = (trim_start_chars l).reverse.dropWhile Char.isWhitespace := by
      simp [trim_chars, trim_end_chars, List.reverse_reverse]
    rw [hrev]
    exact dropWhile_dropWhile _ _
  have ho_start : trim_start_chars o = o := by
    rw [ho]
    exact strip_go_trim_start m.length m hm_start
  have ho_end : trim_end_chars o = o := by
    rw [trim_end_eq_self_iff]
    exact trim_start_of_prefixed ( List.reverse_prefix.mpr hsuf)
      ((trim_end_eq_self_iff m).mp hm_end)
  have ho_strip : strip_subject_markers o = o := by
    have hno := strip_go_no_marker m.length m (le_refl _)
    exact strip_go_of_no_marker o.length o hno.1 hno.2.1 hno.2.2
  refine ⟨?_, hmap_o, ho_strip⟩
  rw [trim_chars, ho_start, ho_end]

/-- C9: subject normalization is idempotent, and the spec's example
normalizes as stated. -/
theorem normalize_subject_idempotent (x : String) :
    normalize_subject (normalize_subject x) = normalize_subject x ∧
    normalize_subject "Re: Fwd:  Re: hello" = "hello" := by
  obtain ⟨h1, h2, h3⟩ := normalized_chars_fixed x.data
  constructor
  · have hun : normalize_subject (normalize_subject x)
        = String.mk (strip_subject_markers
            ((trim_chars (strip_subject_markers
              ((trim_chars x.data).map to_ascii_lowercase))).map to_ascii_lowercase)) :=
      rfl
    rw [hun, h1, h2, h3]
    rfl
  · decide

end GnsCore
